import Mathlib

/-!
Verification of the serialization adapters of the `fixed_str` crate
(`src/serialize_ext.rs`) over a shallow embedding in Lean.

Bytes are modelled as natural numbers; the fixed-capacity buffer
`FixedStr N` is a list of bytes whose length is exactly `N`.  Streams and
byte sinks are modelled as lists of bytes.  The base string type
(`FixedStr::new`, `try_as_str`, `as_bytes`, `TryFrom<&[u8]>`) is an
external collaborator of the adapters and is modelled from the spec; the
four codec adapters themselves are translated from the source.
-/

/-- A fixed-capacity inline buffer of exactly `N` bytes.
Mirrors the Rust `FixedStr<N>` wrapper around `[u8; N]`. -/
def FixedStr (N : Nat) : Type := { l : List Nat // l.length = N }

instance (N : Nat) : DecidableEq (FixedStr N) :=
  Subtype.instDecidableEq

/-- The codec error values surfaced at serialization boundaries
(`FixedStrError::InvalidUtf8` and the length-mismatch condition of
fallible byte construction). -/
inductive FixedStrError : Type
  | invalidUtf8 : FixedStrError
  | lengthMismatch (expected found : Nat) : FixedStrError
deriving DecidableEq, Repr

/-- `as_bytes`: expose the raw underlying `N` bytes. -/
def FixedStr.as_bytes {N : Nat} (v : FixedStr N) : List Nat := v.val

/-- Is `b` a UTF-8 continuation byte (`0x80 ..= 0xBF`)? -/
def isContByte (b : Nat) : Bool := decide (0x80 ≤ b ∧ b < 0xC0)

/-- RFC 3629 UTF-8 validity of a byte sequence: every scalar value is
encoded in its shortest form, surrogates excluded, maximum scalar
`U+10FFFF`. -/
def validUtf8 : List Nat → Bool
  | [] => true
  | b :: rest =>
    if b < 0x80 then validUtf8 rest
    else if b < 0xC2 then false
    else if b < 0xE0 then
      match rest with
      | c1 :: r => isContByte c1 && validUtf8 r
      | [] => false
    else if b < 0xF0 then
      match rest with
      | c1 :: c2 :: r =>
        (if b = 0xE0 then decide (0xA0 ≤ c1 ∧ c1 < 0xC0)
         else if b = 0xED then decide (0x80 ≤ c1 ∧ c1 < 0xA0)
         else isContByte c1) && isContByte c2 && validUtf8 r
      | _ => false
    else if b < 0xF5 then
      match rest with
      | c1 :: c2 :: c3 :: r =>
        (if b = 0xF0 then decide (0x90 ≤ c1 ∧ c1 < 0xC0)
         else if b = 0xF4 then decide (0x80 ≤ c1 ∧ c1 < 0x90)
         else isContByte c1) && isContByte c2 && isContByte c3 && validUtf8 r
      | _ => false
    else false

/-- Largest char-boundary position of `s` that is `≤ k`: a position is a
boundary when it equals `s.length` or the byte there is not a
continuation byte. -/
def floorCharBoundary (s : List Nat) : Nat → Nat
  | 0 => 0
  | k + 1 =>
    if h : k + 1 < s.length then
      if isContByte (s.get ⟨k + 1, h⟩) then floorCharBoundary s k else k + 1
    else s.length

theorem floorCharBoundary_le (s : List Nat) (k : Nat) :
    floorCharBoundary s k ≤ k := by
  induction k with
  | zero => simp [floorCharBoundary]
  | succ n ih =>
    unfold floorCharBoundary
    split
    · split
      · exact Nat.le_trans ih (Nat.le_succ n)
      · exact Nat.le_refl _
    · omega

theorem floorCharBoundary_le_length (s : List Nat) (k : Nat) :
    floorCharBoundary s k ≤ s.length := by
  induction k with
  | zero => simp [floorCharBoundary]
  | succ n ih =>
    unfold floorCharBoundary
    split
    · split
      · exact ih
      · omega
    · exact Nat.le_refl _

theorem floorCharBoundary_of_le (s : List Nat) (k : Nat)
    (h : s.length ≤ k) : floorCharBoundary s k = s.length := by
  cases k with
  | zero => simp [floorCharBoundary]; omega
  | succ n =>
    unfold floorCharBoundary
    split
    · omega
    · rfl

/-- Modelled from the spec: `construct_from_str` / `FixedStr::new` of the
base type (not under `src/`) — truncates the input to fit the fixed
capacity, dropping characters beyond capacity, and pads any remaining
capacity with the default byte value `0`. -/
def FixedStr.new (N : Nat) (s : List Nat) : FixedStr N :=
  ⟨s.take (floorCharBoundary s N) ++
     List.replicate (N - floorCharBoundary s N) 0, by
    have h1 := floorCharBoundary_le s N
    have h2 := floorCharBoundary_le_length s N
    simp [List.length_append, List.length_take, List.length_replicate]
    omega⟩

/-- Modelled from the spec: `try_as_text` / `try_as_str` of the base type
(not under `src/`) — attempts to view the buffer as valid UTF-8 text,
yielding the text on success and `InvalidUtf8` on failure. -/
def FixedStr.try_as_str {N : Nat} (v : FixedStr N) :
    Except FixedStrError (List Nat) :=
  if validUtf8 v.val then Except.ok v.val
  else Except.error FixedStrError.invalidUtf8

/-- Modelled from the spec: `construct_from_bytes` / `TryFrom<&[u8]>` of
the base type (not under `src/`) — exact-length construction from a byte
slice; fails with a length-mismatch condition when the input length is
not `N`. -/
def FixedStr.try_from (N : Nat) (b : List Nat) :
    Except FixedStrError (FixedStr N) :=
  if h : b.length = N then Except.ok ⟨b, h⟩
  else Except.error (FixedStrError.lengthMismatch N b.length)

theorem new_of_length_le (N : Nat) (s : List Nat) (h : s.length ≤ N) :
    (FixedStr.new N s).val = s ++ List.replicate (N - s.length) 0 := by
  have hb := floorCharBoundary_of_le s N h
  simp [FixedStr.new, hb]

theorem new_of_length_eq (N : Nat) (s : List Nat) (h : s.length = N) :
    (FixedStr.new N s).val = s := by
  rw [new_of_length_le N s (Nat.le_of_eq h), h]
  simp

example : validUtf8 [72, 101, 108, 108, 111] = true := by decide
example : validUtf8 [0xFF, 0x00] = false := by decide
example : validUtf8 [0xE3, 0x81, 0x82] = true := by decide
example : validUtf8 [0xC0, 0x80] = false := by decide
example : validUtf8 [0xED, 0xA0, 0x80] = false := by decide
example : (FixedStr.new 5 [72, 101, 108, 108, 111, 87, 111]).val
    = [72, 101, 108, 108, 111] := by decide
example : (FixedStr.new 5 [72, 105]).val = [72, 105, 0, 0, 0] := by decide
example : (FixedStr.new 4 [72, 0xE3, 0x81, 0x82, 65]).val
    = [72, 0xE3, 0x81, 0x82] := by decide
example : (FixedStr.new 3 [72, 0xE3, 0x81, 0x82]).val = [72, 0, 0] := by decide

/-!
## Fixed-Width Binary Codec (`binrw_ext`, from the source)

A positioned input stream is modelled by the list of bytes remaining at
the cursor; an output sink by the list of bytes written so far.
-/

/-- The byte-order parameter of the binrw interface; the adapters ignore
it. -/
inductive Endian : Type
  | little : Endian
  | big : Endian
deriving DecidableEq, Repr

/-- Stream errors of the binary codec. -/
inductive BinError : Type
  | endOfInput : BinError
deriving DecidableEq, Repr

/-- `Read::read_exact` on a list-modelled stream: fill a buffer of `n`
bytes from the front, or fail with an end-of-input condition leaving no
bytes committed. -/
def read_exact (n : Nat) (stream : List Nat) :
    Except BinError (List Nat × List Nat) :=
  if n ≤ stream.length then Except.ok (stream.take n, stream.drop n)
  else Except.error BinError.endOfInput

/-- `BinRead::read_options` for `FixedStr<N>` (source lines 17-25):
allocate `buf = [0u8; N]`, `read_exact` it, and return `Self { data: buf }`
together with the advanced stream. -/
def read_options (N : Nat) (_endian : Endian) (stream : List Nat) :
    Except BinError (FixedStr N × List Nat) :=
  match h : read_exact N stream with
  | Except.ok (buf, rest) =>
      Except.ok (⟨buf, by
        unfold read_exact at h
        split at h
        · simp at h
          rw [← h.1, List.length_take]
          omega
        · exact absurd h (by simp)⟩, rest)
  | Except.error e => Except.error e

/-- `BinWrite::write_options` for `FixedStr<N>` (source lines 32-41):
`writer.write_all(&self.data)`, appending the raw bytes to the sink. -/
def write_options {N : Nat} (v : FixedStr N) (_endian : Endian)
    (out : List Nat) : Except BinError (List Nat) :=
  Except.ok (out ++ v.val)

/-!
## Archival Codec (`rkyv_ext`, from the source)

The archived form of `FixedStr<N>` is `FixedStr<N>` itself; a serializer
sink is a list of bytes.
-/

/-- `Archive::resolve` (source lines 105-110): write `*self` to the
output place — the identity on the value. -/
def rkyv_resolve {N : Nat} (v : FixedStr N) : FixedStr N := v

/-- `CheckBytes::check_bytes` (source lines 85-93): always `Ok(())`,
for every archived byte pattern and every validation context. -/
def check_bytes {N : Nat} {C E : Type} (_value : FixedStr N)
    (_context : C) : Except E Unit :=
  Except.ok ()

/-- rkyv `Serialize::serialize` (source lines 114-121):
`serializer.write(&self.data)` — append the raw `N` bytes to the sink. -/
def rkyv_serialize {N : Nat} (v : FixedStr N) (sink : List Nat) :
    List Nat :=
  sink ++ v.val

/-- rkyv `Deserialize::deserialize` (source lines 124-131): the identity,
returning a copy `Ok(*self)` for every deserializer error type `E`. -/
def rkyv_deserialize {N : Nat} {E : Type} (archived : FixedStr N) :
    Except E (FixedStr N) :=
  Except.ok archived

/-- Zero-copy access to an archived value: the archived bytes are the
live type itself, so `N` bytes reinterpret as `FixedStr N` unchanged
(the framework checks the size before handing out the reference). -/
def access_archived (N : Nat) (b : List Nat) : Option (FixedStr N) :=
  if h : b.length = N then some ⟨b, h⟩ else none

/-!
## Structured Text / Byte Codecs (`serde_ext` and `serde_as_bytes`,
from the source)

A structured-data token is either a string token or a byte-sequence
token; both carry their UTF-8 / raw bytes.
-/

/-- A structured-data token of the serde data model, restricted to the
two token kinds these codecs can produce. -/
inductive Token : Type
  | str (s : List Nat) : Token
  | bytes (b : List Nat) : Token
deriving DecidableEq, Repr

/-- Serialization errors of the structured codecs:
`S::Error::custom(e)`. -/
inductive SerError : Type
  | custom (e : FixedStrError) : SerError
deriving DecidableEq, Repr

/-- Deserialization errors of the structured codecs: a codec-raised
`D::Error::custom(e)`, or the framework-level type error produced by a
visitor's default method on a token kind it does not handle. -/
inductive DeError : Type
  | custom (e : FixedStrError) : DeError
  | invalidType : DeError
deriving DecidableEq, Repr

/-- serde `Serialize` for `FixedStr<N>` (source lines 182-192): on
`try_as_str` success emit the text as a string token, otherwise fail
with `S::Error::custom(FixedStrError::InvalidUtf8)`. -/
def serde_serialize {N : Nat} (v : FixedStr N) : Except SerError Token :=
  match v.try_as_str with
  | Except.ok s => Except.ok (Token.str s)
  | Except.error _ =>
      Except.error (SerError.custom FixedStrError.invalidUtf8)

/-- `FixedStrVisitor` run on an incoming token: `visit_str` (source
lines 204-209) forwards to `FixedStr::new`; every other token kind hits
a default visitor method, which fails with a type error. -/
def visitor_visit (N : Nat) (t : Token) : Except DeError (FixedStr N) :=
  match t with
  | Token.str s => Except.ok (FixedStr.new N s)
  | Token.bytes _ => Except.error DeError.invalidType

/-- serde `Deserialize` for `FixedStr<N>` (source lines 213-220):
`deserializer.deserialize_str(FixedStrVisitor)` — drive the visitor with
the input token. -/
def serde_deserialize (N : Nat) (t : Token) : Except DeError (FixedStr N) :=
  visitor_visit N t

/-- `serde_as_bytes::serialize` (source lines 230-238):
`serializer.serialize_bytes(value.as_bytes())` — emit the raw bytes as a
byte-sequence token; this path performs no fallible operation. -/
def serde_as_bytes_serialize {N : Nat} (v : FixedStr N) :
    Except SerError Token :=
  Except.ok (Token.bytes v.as_bytes)

/-- `serde_as_bytes::deserialize` (source lines 241-247): obtain the raw
byte sequence and run `FixedStr::<N>::try_from(bytes)`, mapping its
error through `D::Error::custom`. -/
def serde_as_bytes_deserialize (N : Nat) (b : List Nat) :
    Except DeError (FixedStr N) :=
  match FixedStr.try_from N b with
  | Except.ok v => Except.ok v
  | Except.error e => Except.error (DeError.custom e)

/-!
## Helper lemmas about the codecs
-/

theorem read_options_of_lt {N : Nat} {stream : List Nat} (e : Endian)
    (h : stream.length < N) :
    read_options N e stream = Except.error BinError.endOfInput := by
  unfold read_options
  split
  · rename_i buf rest heq
    unfold read_exact at heq
    rw [if_neg (by omega)] at heq
    simp at heq
  · rename_i err heq
    unfold read_exact at heq
    rw [if_neg (by omega)] at heq

theorem read_options_of_le {N : Nat} {stream : List Nat} (e : Endian)
    (h : N ≤ stream.length) :
    ∃ v : FixedStr N,
      read_options N e stream = Except.ok (v, stream.drop N) ∧
        v.val = stream.take N := by
  unfold read_options
  split
  · rename_i buf rest heq
    unfold read_exact at heq
    rw [if_pos h] at heq
    simp only [Except.ok.injEq, Prod.mk.injEq] at heq
    obtain ⟨h1, h2⟩ := heq
    subst h2
    exact ⟨_, rfl, h1.symm⟩
  · rename_i err heq
    unfold read_exact at heq
    rw [if_pos h] at heq
    simp at heq

theorem serde_serialize_spec (N : Nat) (v : FixedStr N) :
    serde_serialize v =
      if validUtf8 v.val then Except.ok (Token.str v.val)
      else Except.error (SerError.custom FixedStrError.invalidUtf8) := by
  unfold serde_serialize FixedStr.try_as_str
  by_cases h : validUtf8 v.val
  · rw [if_pos h, if_pos h]
  · rw [if_neg h, if_neg h]

/-!
## The claims
-/

/-- C1: for every byte pattern `b` of length `N`, including non-UTF-8
patterns, archival serialize followed by archival deserialize of the
value constructed from `b` yields a value whose raw bytes equal `b`;
archival deserialize is the identity (returns a copy of the archived
value) and cannot itself fail, for every deserializer error type `E`. -/
theorem archive_roundtrip_raw_bytes (E : Type) (N : Nat) (b : List Nat)
    (h : b.length = N) :
    ∃ v w : FixedStr N,
      FixedStr.try_from N b = Except.ok v ∧
      rkyv_serialize v [] = b ∧
      access_archived N (rkyv_serialize v []) = some w ∧
      rkyv_deserialize (E := E) w = Except.ok w ∧
      w.as_bytes = b := by
  refine ⟨⟨b, h⟩, ⟨b, h⟩, ?_, ?_, ?_, rfl, rfl⟩
  · unfold FixedStr.try_from
    rw [dif_pos h]
  · simp [rkyv_serialize]
  · simp [rkyv_serialize, access_archived, h]

/-- Witness for C1 at the concrete non-UTF-8 pattern `[0xFF, 0x00]`
with `N = 2`: the pattern is not valid text, yet the archival
round-trip reproduces it exactly. -/
theorem archive_roundtrip_raw_bytes_witness :
    validUtf8 [255, 0] = false ∧
    (∃ v w : FixedStr 2,
      FixedStr.try_from 2 [255, 0] = Except.ok v ∧
      rkyv_serialize v [] = [255, 0] ∧
      access_archived 2 (rkyv_serialize v []) = some w ∧
      rkyv_deserialize (E := Unit) w = Except.ok w ∧
      w.as_bytes = [255, 0]) :=
  ⟨by decide, archive_roundtrip_raw_bytes Unit 2 [255, 0] (by decide)⟩

/-- C2: for every value `v` of capacity `N`, writing `v` with the
fixed-width binary codec and reading back from the resulting bytes
returns `v`, with exact byte identity, for any byte-order parameters. -/
theorem binrw_write_read_roundtrip (N : Nat) (v : FixedStr N)
    (e e' : Endian) :
    ∃ out : List Nat,
      write_options v e [] = Except.ok out ∧
      out = v.as_bytes ∧
      read_options N e' out = Except.ok (v, []) := by
  refine ⟨v.val, by simp [write_options], rfl, ?_⟩
  obtain ⟨w, hw, hval⟩ :=
    read_options_of_le e' (show N ≤ v.val.length by rw [v.property])
  have hdrop : v.val.drop N = [] := List.drop_eq_nil_of_le v.property.le
  have htake : v.val.take N = v.val := List.take_of_length_le v.property.le
  have hwv : w = v := Subtype.ext (by rw [hval, htake])
  rw [hw, hdrop, hwv]

/-- C3: the strict byte-token deserializer fails with the
length-mismatch condition exactly when the input length is not `N`;
on input of length `N` it succeeds and yields raw bytes exactly the
input, with no truncation or padding. -/
theorem byte_codec_strict_length (N : Nat) (b : List Nat) :
    (serde_as_bytes_deserialize N b =
        Except.error
          (DeError.custom (FixedStrError.lengthMismatch N b.length))
      ↔ b.length ≠ N) ∧
    (b.length = N →
      ∃ v : FixedStr N,
        serde_as_bytes_deserialize N b = Except.ok v ∧ v.as_bytes = b) := by
  unfold serde_as_bytes_deserialize FixedStr.try_from
  by_cases h : b.length = N
  · rw [dif_pos h]
    refine ⟨⟨fun hc => by simp at hc, fun hne => absurd h hne⟩, ?_⟩
    intro _
    exact ⟨⟨b, h⟩, rfl, rfl⟩
  · rw [dif_neg h]
    exact ⟨⟨fun _ => h, fun _ => rfl⟩, fun hEq => absurd hEq h⟩

/-- Witness for C3: a 2-byte input against `N = 3` fails with the
length-mismatch condition, and a 2-byte input against `N = 2` succeeds
with exactly those bytes. -/
theorem byte_codec_strict_length_witness :
    serde_as_bytes_deserialize 3 [72, 105] =
      Except.error
        (DeError.custom (FixedStrError.lengthMismatch 3 2)) ∧
    (∃ v : FixedStr 2,
      serde_as_bytes_deserialize 2 [72, 105] = Except.ok v ∧
        v.as_bytes = [72, 105]) :=
  ⟨(byte_codec_strict_length 3 [72, 105]).1.mpr (by decide),
   (byte_codec_strict_length 2 [72, 105]).2 (by decide)⟩

/-- C4: text-codec serialization succeeds and emits the buffer as a
string token exactly when the buffer is valid UTF-8; on an invalid
byte sequence it fails with the `InvalidUtf8` condition, emitting
nothing (no replacement characters, no truncated output). -/
theorem text_serialize_utf8_characterization (N : Nat) (v : FixedStr N) :
    serde_serialize v =
      if validUtf8 v.as_bytes then Except.ok (Token.str v.as_bytes)
      else Except.error (SerError.custom FixedStrError.invalidUtf8) :=
  serde_serialize_spec N v

/-- C5: for every string input `s` longer than `N`, text-codec
deserialization does not fail: it forwards `s` to the base type's
constructor, which truncates at a character boundary at or below `N`
and pads the rest, producing a value of exactly `N` raw bytes. -/
theorem text_deserialize_truncates_oversized (N : Nat) (s : List Nat)
    (_h : N < s.length) :
    serde_deserialize N (Token.str s) = Except.ok (FixedStr.new N s) ∧
    (FixedStr.new N s).as_bytes =
      s.take (floorCharBoundary s N) ++
        List.replicate (N - floorCharBoundary s N) 0 ∧
    floorCharBoundary s N ≤ N ∧
    (FixedStr.new N s).as_bytes.length = N :=
  ⟨rfl, rfl, floorCharBoundary_le s N, (FixedStr.new N s).property⟩

/-- Witness for C5 at the spec's concrete scenario: `N = 5` and input
`"HelloWorld"` (10 bytes) deserializes without error to the value with
raw bytes `"Hello"`. -/
theorem text_deserialize_truncates_oversized_witness :
    (serde_deserialize 5
        (Token.str [72, 101, 108, 108, 111, 87, 111, 114, 108, 100]) =
      Except.ok
        (FixedStr.new 5 [72, 101, 108, 108, 111, 87, 111, 114, 108, 100]) ∧
    (FixedStr.new 5
        [72, 101, 108, 108, 111, 87, 111, 114, 108, 100]).as_bytes =
      [72, 101, 108, 108, 111, 87, 111, 114, 108, 100].take
          (floorCharBoundary
            [72, 101, 108, 108, 111, 87, 111, 114, 108, 100] 5) ++
        List.replicate
          (5 - floorCharBoundary
            [72, 101, 108, 108, 111, 87, 111, 114, 108, 100] 5) 0 ∧
    floorCharBoundary [72, 101, 108, 108, 111, 87, 111, 114, 108, 100] 5
        ≤ 5 ∧
    (FixedStr.new 5
        [72, 101, 108, 108, 111, 87, 111, 114, 108, 100]).as_bytes.length
      = 5) ∧
    (FixedStr.new 5
        [72, 101, 108, 108, 111, 87, 111, 114, 108, 100]).as_bytes =
      [72, 101, 108, 108, 111] :=
  ⟨text_deserialize_truncates_oversized 5
      [72, 101, 108, 108, 111, 87, 111, 114, 108, 100] (by decide),
   by decide⟩

/-- C6: the archival codec's validation check succeeds for every
archived byte pattern of length `N`, every validation context, and
every error type: it never rejects any input. -/
theorem check_bytes_always_ok (N : Nat) (C E : Type)
    (value : FixedStr N) (context : C) :
    check_bytes (E := E) value context = Except.ok () :=
  rfl

/-- C7: the fixed-width binary read consumes exactly `N` bytes on
success (the remaining stream is the input minus its first `N` bytes);
when fewer than `N` bytes are available it fails with the end-of-input
condition and returns no value. -/
theorem binread_exact_or_eof (N : Nat) (e : Endian)
    (stream : List Nat) :
    (stream.length < N →
      read_options N e stream = Except.error BinError.endOfInput) ∧
    (N ≤ stream.length →
      ∃ v : FixedStr N,
        read_options N e stream = Except.ok (v, stream.drop N) ∧
        v.as_bytes = stream.take N ∧
        v.as_bytes.length = N ∧
        (stream.drop N).length = stream.length - N) := by
  refine ⟨fun h => read_options_of_lt e h, fun h => ?_⟩
  obtain ⟨v, hv, hval⟩ := read_options_of_le e h
  exact ⟨v, hv, hval, v.property, List.length_drop N stream⟩

/-- Witness for C7: a 3-byte stream fails against `N = 5` with
end-of-input, and succeeds against `N = 2` consuming exactly the first
two bytes and leaving the third. -/
theorem binread_exact_or_eof_witness :
    read_options 5 Endian.little [1, 2, 3] =
      Except.error BinError.endOfInput ∧
    (∃ v : FixedStr 2,
      read_options 2 Endian.big [1, 2, 3] =
        Except.ok (v, [1, 2, 3].drop 2) ∧
      v.as_bytes = [1, 2, 3].take 2 ∧
      v.as_bytes.length = 2 ∧
      ([1, 2, 3].drop 2).length = [1, 2, 3].length - 2) :=
  ⟨(binread_exact_or_eof 5 Endian.little [1, 2, 3]).1 (by decide),
   (binread_exact_or_eof 2 Endian.big [1, 2, 3]).2 (by decide)⟩

/-- C8: for every value `v` whose buffer is valid UTF-8, text-codec
deserialization of the text-codec serialization of `v` yields `v`. -/
theorem text_roundtrip_valid_utf8 (N : Nat) (v : FixedStr N)
    (h : validUtf8 v.as_bytes = true) :
    serde_serialize v = Except.ok (Token.str v.as_bytes) ∧
    serde_deserialize N (Token.str v.as_bytes) = Except.ok v := by
  constructor
  · show serde_serialize v = Except.ok (Token.str v.val)
    rw [serde_serialize_spec N v,
      if_pos (show validUtf8 v.val = true from h)]
  · show serde_deserialize N (Token.str v.val) = Except.ok v
    unfold serde_deserialize visitor_visit
    exact congrArg Except.ok
      (Subtype.ext (new_of_length_eq N v.val v.property))

/-- Witness for C8 at the concrete value `"Hi"` with `N = 2`. -/
theorem text_roundtrip_valid_utf8_witness :
    serde_serialize (⟨[72, 105], rfl⟩ : FixedStr 2) =
      Except.ok (Token.str [72, 105]) ∧
    serde_deserialize 2 (Token.str [72, 105]) =
      Except.ok (⟨[72, 105], rfl⟩ : FixedStr 2) :=
  text_roundtrip_valid_utf8 2 ⟨[72, 105], rfl⟩ (by decide)

/-- C9: the three serialize paths emit identical bytes: the
fixed-width binary write, the archival serialize, and the byte-token
serialize each emit exactly the `N` raw underlying bytes of `v`, and
the byte-token path never fails. -/
theorem serialize_paths_emit_identical_bytes (N : Nat)
    (v : FixedStr N) (e : Endian) :
    write_options v e [] = Except.ok v.as_bytes ∧
    rkyv_serialize v [] = v.as_bytes ∧
    serde_as_bytes_serialize v = Except.ok (Token.bytes v.as_bytes) ∧
    v.as_bytes.length = N :=
  ⟨rfl, rfl, rfl, v.property⟩

/-- C10: the default text-codec deserializer's visitor handles only
string tokens, so every byte-sequence token — in particular the output
of the opt-in byte codec — is rejected with the framework-level type
error; the default text codec cannot read the byte codec's output. -/
theorem default_codec_rejects_byte_token (N M : Nat) (v : FixedStr M)
    (b : List Nat) :
    serde_deserialize N (Token.bytes b) = Except.error DeError.invalidType ∧
    serde_as_bytes_serialize v = Except.ok (Token.bytes v.as_bytes) ∧
    serde_deserialize N (Token.bytes v.as_bytes) =
      Except.error DeError.invalidType :=
  ⟨rfl, rfl, rfl⟩
